import Mathlib

/-!
Verification development for the cloudshell-cli repository.

The development shallowly embeds the two core components named by the
specification: the expect-style command-interaction engine
(`cloudshell/cli/session/expect_session.py`) and the session pool
(`cloudshell/cli/session/connection_manager.py`).  Pure helpers that the
engine calls but whose source files are not part of the repository snapshot
(`ActionMap.process`, `ErrorMap.process`, `normalize_buffer`,
`Session.set_invalid`) are modelled from the specification and say so in
their doc comments.  Python `int` counters are embedded as `Int`; the
engine's read loops, which in Python run on wall-clock time, are embedded as
fuel-indexed recursion where one unit of fuel corresponds to one `_receive`
call (each such call consumes roughly one tenth of a second, the constant
short read timeout used by `_receive_all`), and a result of `none` means the
fuel bound was reached before the loop finished.
-/

/-! ## Connection pool counter (`connection_manager.py`)

`decrement_sessions_count` / `increment_sessions_count` operate on the
Python `int` field `_existing_sessions`; they are embedded over `Int`. -/

/-- `ConnectionManager.decrement_sessions_count`: decrement
`_existing_sessions` only when it is strictly positive. -/
def decrement_sessions_count (n : Int) : Int :=
  if n > 0 then n - 1 else n

/-- `ConnectionManager.increment_sessions_count`: unconditional increment of
`_existing_sessions`. -/
def increment_sessions_count (n : Int) : Int :=
  n + 1

/-- An abstract event on the `_existing_sessions` counter. -/
inductive CounterOp
  | inc
  | dec
deriving DecidableEq

/-- Apply one counter event, through the source's two mutators. -/
def applyCounterOp (n : Int) : CounterOp → Int
  | .inc => increment_sessions_count n
  | .dec => decrement_sessions_count n

/-- Run a sequence of counter events from the constructor's initial value
`_existing_sessions = 0`. -/
def countRun (ops : List CounterOp) : Int :=
  ops.foldl applyCounterOp 0

/-! ## Connection pool state (`connection_manager.py`)

`get_session_instance` / `return_session_to_pool`, with the body of
`get_session_instance` serialized by `CREATE_SESSION_LOCK`; the embedding
treats each operation as one atomic step, which is exactly what the lock
guarantees for the creation phase.  Sessions are identified by `Nat` ids,
the idle `Queue` is a FIFO list, and `nextId` produces fresh ids for newly
created sessions. -/

structure PoolState where
  counter : Int
  queue : List Nat
  nextId : Nat
deriving DecidableEq

/-- The pool state right after `ConnectionManager.__init__`: empty idle
queue, `_existing_sessions = 0`. -/
def initPool : PoolState :=
  { counter := 0, queue := [], nextId := 0 }

/-- `ConnectionManager.get_session_instance`: under `CREATE_SESSION_LOCK`,
if the idle queue is empty and `_existing_sessions < max_connections`,
create a session, increment the counter and push the session onto the idle
queue; then pop a session from the queue (`_get_session_from_pool`), which
fails (`none`) when the queue is still empty.  The third component records
whether a session was created by this call. -/
def get_session_instance (maxConnections : Nat) (st : PoolState) :
    PoolState × Option Nat × Bool :=
  let createCond := st.queue.isEmpty && decide (st.counter < (maxConnections : Int))
  let st1 := if createCond then
      { counter := increment_sessions_count st.counter,
        queue := st.queue ++ [st.nextId],
        nextId := st.nextId + 1 }
    else st
  match st1.queue with
  | [] => (st1, none, createCond)
  | s :: rest => ({ st1 with queue := rest }, some s, createCond)

/-- `ConnectionManager.return_session_to_pool`: `Queue.put` with
`maxsize = max_connections`; the put succeeds only while the queue is not
full (otherwise the source blocks and then raises on timeout, returned here
as `false`). -/
def return_session_to_pool (maxConnections : Nat) (st : PoolState) (s : Nat) :
    PoolState × Bool :=
  if st.queue.length < maxConnections then
    ({ st with queue := st.queue ++ [s] }, true)
  else
    (st, false)

/-- An abstract pool operation: one serialized `get_session_instance` call
or one `return_session_to_pool` call. -/
inductive PoolOp
  | getSession
  | returnSession (s : Nat)
deriving DecidableEq

/-- Apply one pool operation to the pool state. -/
def applyPoolOp (maxConnections : Nat) (st : PoolState) : PoolOp → PoolState
  | .getSession => (get_session_instance maxConnections st).1
  | .returnSession s => (return_session_to_pool maxConnections st s).1

/-- Run a sequence of pool operations from the freshly constructed pool. -/
def runPool (maxConnections : Nat) (ops : List PoolOp) : PoolState :=
  ops.foldl (applyPoolOp maxConnections) initPool

/-! ## `ExpectSession.connect` (`expect_session.py`)

`connect` runs `_initialize_session`, then `_connect_actions`, then
`set_active(True)`; on any exception it calls `disconnect` and re-raises.
The two abstract subclass hooks are embedded as their outcomes (`none` for
success, `some e` for the exception `e` they raise).  `disconnect` is the
transport teardown (`TelnetSession.disconnect` closes the handler and does
not touch `_active`), recorded by the `disconnected` flag. -/

structure ConnSt where
  active : Bool
  disconnected : Bool
deriving DecidableEq

/-- `ExpectSession.set_active`. -/
def set_active (st : ConnSt) (b : Bool) : ConnSt :=
  { st with active := b }

/-- `Session.disconnect` as implemented by the transports in the snapshot:
close the handler; the `_active` flag is not modified. -/
def disconnectOp (st : ConnSt) : ConnSt :=
  { st with disconnected := true }

/-- `ExpectSession.connect`, parameterized by the outcomes of the abstract
`_initialize_session` and `_connect_actions` hooks.  Returns the re-raised
exception (if any) together with the resulting session state. -/
def connect (initRes actRes : Option String) (st : ConnSt) :
    Option String × ConnSt :=
  match initRes with
  | some e => (some e, disconnectOp st)
  | none =>
    match actRes with
    | some e => (some e, disconnectOp st)
    | none => (none, set_active st true)

/-! ## Thread-affinity cache (`connection_manager.py`)

`SESSION_CONTAINER` maps a thread to its cached session;
`destroy_thread_session` invalidates the session and deletes the calling
thread's entry.  Threads and sessions are identified by `Nat` ids; the
`active` field models each session's `_active` flag and `pool` is the idle
queue, carried along to show it is untouched. -/

structure CMState where
  active : Nat → Bool
  container : List (Nat × Nat)
  pool : List Nat

/-- Modelled from the spec: `Session.set_invalid` (its source file is not
part of the snapshot) marks the session inactive, per `destroyAffinity`:
"marks the session inactive". -/
def set_invalid (sid : Nat) (st : CMState) : CMState :=
  { st with active := fun x => if x = sid then false else st.active x }

/-- `ConnectionManager.destroy_thread_session`: invalidate the session,
then delete the calling thread's entry from `SESSION_CONTAINER` when
present.  The pool is not touched. -/
def destroy_thread_session (tid sid : Nat) (st : CMState) : CMState :=
  let st1 := set_invalid sid st
  if (st1.container.lookup tid).isSome then
    { st1 with container := st1.container.filter (fun p => p.1 != tid) }
  else st1

/-! ## String helpers shared by the engine embedding -/

/-- Python `\s` over the ASCII range: the whitespace characters recognised
by the regular expressions the engine builds. -/
def isWs (c : Char) : Bool :=
  c = ' ' || c = '\t' || c = '\n' || c = '\r' || c = '\x0b' || c = '\x0c'

/-- Count and drop the leading whitespace run (the greedy action of a
whitespace quantifier at the current position). -/
def dropWsCount : List Char → Nat × List Char
  | [] => (0, [])
  | c :: t =>
    if isWs c then
      let (n, r) := dropWsCount t
      (n + 1, r)
    else (0, c :: t)

/-- Whether `pat` occurs as a contiguous subsequence of `cs`: the semantics
of `re.search` for a fully escaped (literal) pattern. -/
def containsSeq (pat : List Char) : List Char → Bool
  | [] => pat.isEmpty
  | c :: t => pat.isPrefixOf (c :: t) || containsSeq pat t

/-- `re.search(pat, s)` for a literal pattern, on `String`. -/
def strContains (s pat : String) : Bool :=
  containsSeq pat.toList s.toList

/-! ## Command-echo pattern (`_generate_command_pattern`)

The source builds the regex
`'\s*' + re.sub(r'\\\s+', '\s+', re.escape(command)) + '\s*'`:
`re.escape` (Python >= 3.7) escapes every whitespace character of the
command individually as backslash-char, and the substitution then turns each
such escaped whitespace character into one `\s+`.  The resulting pattern is
therefore: optional leading whitespace (at least as many characters as the
command's leading whitespace run), the command's words literally, with each
interior whitespace run of length `n` requiring at least `n` whitespace
characters, and trailing whitespace (at least the command's trailing run).
`CmdPattern` stores exactly these data: the minimum leading-run length and,
for each word, the word together with the minimum whitespace-run length
required after it (for the last word this also absorbs the final `\s*`).
The per-session memo cache `_command_patterns` always stores the value of
this pure function of the command, so it is embedded as the function
itself. -/

structure CmdPattern where
  leadMin : Nat
  items : List (List Char × Nat)
deriving DecidableEq

/-- Group a character list into maximal runs, each tagged with whether it
is a whitespace run. -/
def toRuns : List Char → List (Bool × List Char)
  | [] => []
  | c :: t =>
    match toRuns t with
    | [] => [(isWs c, [c])]
    | (b, r) :: rest =>
      if b = isWs c then (b, c :: r) :: rest
      else (isWs c, [c]) :: (b, r) :: rest

/-- Turn the run list of a command (leading whitespace already removed)
into the `items` of `CmdPattern`: each word paired with the length of the
whitespace run that follows it. -/
def runsToItems : List (Bool × List Char) → List (List Char × Nat)
  | [] => []
  | (true, _) :: rest => runsToItems rest
  | (false, w) :: [] => [(w, 0)]
  | (false, w) :: (true, s) :: rest => (w, s.length) :: runsToItems rest
  | (false, w) :: (false, w2) :: rest => (w, 0) :: runsToItems ((false, w2) :: rest)

/-- `ExpectSession._generate_command_pattern` (see the section comment for
the correspondence with the generated regex text). -/
def generate_command_pattern (command : String) : CmdPattern :=
  let cs := command.toList
  let (lead, rest) := dropWsCount cs
  { leadMin := lead, items := runsToItems (toRuns rest) }

/-- Try to match the pattern at the current position: require (and greedily
consume) a whitespace run of at least `min` characters before each word and
after the last word, and each word literally; greedy consumption is exact
here because every word starts with a non-whitespace character.  Returns
the remainder after the match. -/
def matchItems : List (List Char × Nat) → List Char → Option (List Char)
  | [], cs => some cs
  | (w, m) :: rest, cs =>
    if w.isPrefixOf cs then
      let cs1 := cs.drop w.length
      let (n, cs2) := dropWsCount cs1
      if m ≤ n then matchItems rest cs2 else none
    else none

/-- Match the whole pattern at the current position (leading whitespace
first), returning the remainder after the match. -/
def matchAt (p : CmdPattern) (cs : List Char) : Option (List Char) :=
  let (n, rest) := dropWsCount cs
  if p.leadMin ≤ n then matchItems p.items rest else none

/-- `re.search` for the command pattern: scan for the leftmost match,
returning its span as character positions.  With `count=1`, `re.sub`
removes exactly this span. -/
def searchFrom (p : CmdPattern) : List Char → Nat → Option (Nat × Nat)
  | cs, i =>
    match matchAt p cs with
    | some rest => some (i, i + (cs.length - rest.length))
    | none =>
      match cs with
      | [] => none
      | _ :: t => searchFrom p t (i + 1)

/-- `re.search(command_pattern, s, flags=re.MULTILINE)` (the MULTILINE flag
is irrelevant: the pattern contains no anchors). -/
def cmdSearch (p : CmdPattern) (s : String) : Option (Nat × Nat) :=
  searchFrom p s.toList 0

/-- `re.sub(command_pattern, '', s, count=1, flags=re.MULTILINE)`: delete
the leftmost match, if any. -/
def cmdReSub1 (p : CmdPattern) (s : String) : String :=
  match cmdSearch p s with
  | some (i, j) => ⟨s.toList.take i ++ s.toList.drop j⟩
  | none => s

/-! ## Spec-modelled helpers missing from the snapshot -/

/-- Modelled from the spec: `normalize_buffer`
(`cloudshell/cli/session/helper/normalize_buffer.py` is not part of the
snapshot) performs line-ending normalization; CRLF and bare CR become
LF. -/
def normChars : List Char → List Char
  | [] => []
  | '\r' :: '\n' :: t => '\n' :: normChars t
  | '\r' :: t => '\n' :: normChars t
  | c :: t => c :: normChars t

/-- Modelled from the spec: `normalize_buffer` on `String`. -/
def normalize_buffer (s : String) : String :=
  ⟨normChars s.toList⟩

/-- Modelled from the spec: an `ErrorMap`
(`cloudshell/cli/service/error_map.py` is not part of the snapshot) is an
ordered set of literal error patterns. -/
def ErrorMapT : Type := List String

/-- Modelled from the spec: `ErrorMap.process` is "evaluated once against
final command output; if any error pattern matches, fail with
CommandExecutionError carrying the matched text" — `some` of the matched
text when a pattern matches, `none` otherwise. -/
def errorMapProcess (em : List String) (output : String) : Option String :=
  em.find? (fun p => strContains output p)

/-- Modelled from the spec: `ActionMap.process` evaluates its ordered rules
against the accumulated output and reports whether any rule matched (the
rules' side-effecting reactions and the loop-detector signalling are not
modelled; no claim in this development depends on them). -/
def actionMapProcess (am : List String) (output : String) : Bool :=
  am.any (fun p => strContains output p)

/-! ## Transport and the engine's read primitives (`expect_session.py`)

The abstract `_receive` is embedded as a fixed stream of read outcomes: the
`k`-th `_receive` call made on the session returns `trans k`, which is
either data or one of the two transient read exceptions.  `_send` does not
affect the incoming stream; sent lines are collected in a log. -/

inductive ReadResult
  | data (s : String)
  | readTimeout
  | readEmptyData
deriving DecidableEq

/-- A transport: the outcome of each successive `_receive` call. -/
def Transport : Type := Nat → ReadResult

/-- Session construction parameters used by `hardware_expect`
(`ExpectSession.__init__` defaults; the read timeout is measured in tenths
of a second, the length of one short `_receive(0.1)` call). -/
structure SessCfg where
  newLine : String := "\r"
  timeout : Nat := 300
  maxLoopRetries : Nat := 20
deriving DecidableEq

/-- `ExpectSession._clear_buffer`: repeatedly `_receive`, treating the two
transient read exceptions as "no data"; accumulate data until a read yields
nothing.  Returns the drained text and the next read index; `none` when the
fuel bound is hit (a transport that returns data forever). -/
def clearBuffer (trans : Transport) : Nat → String → Nat → Option (String × Nat)
  | 0, _, _ => none
  | fuel + 1, out, k =>
    match trans k with
    | .data s => if s = "" then some (out, k + 1) else clearBuffer trans fuel (out ++ s) (k + 1)
    | .readTimeout => some (out, k + 1)
    | .readEmptyData => some (out, k + 1)

/-- The loop of `ExpectSession._receive_all`: keep issuing short
`_receive(0.1)` calls, appending data to `buf`; on a transient read
exception, return the buffer if it is non-empty, raise
`ExpectedSessionException` (`Except.error`) once the wall clock exceeds the
timeout, and otherwise keep polling.  `j` counts the `_receive` calls made
so far by this invocation, each standing for one tenth of a second of
elapsed time. -/
def receiveAllGo (trans : Transport) (timeoutTenths : Nat) :
    Nat → String → Nat → Nat → Option (Except String (String × Nat))
  | 0, _, _, _ => none
  | fuel + 1, buf, k, j =>
    match trans k with
    | .data s => receiveAllGo trans timeoutTenths fuel (buf ++ s) (k + 1) (j + 1)
    | _ =>
      if buf = "" then
        if j + 1 > timeoutTenths then some (.error "Socket closed by timeout")
        else receiveAllGo trans timeoutTenths fuel buf (k + 1) (j + 1)
      else some (.ok (buf, k + 1))

/-- `ExpectSession._receive_all`, including the `timeout or self._timeout`
coalescing at its head (the argument `0` stands for Python `None`/`0`). -/
def receiveAll (trans : Transport) (timeoutArg cfgTimeout fuel k : Nat) :
    Option (Except String (String × Nat)) :=
  let t := if timeoutArg = 0 then cfgTimeout else timeoutArg
  receiveAllGo trans t fuel "" k 0

/-! ## The `hardware_expect` read/match/act loop -/

/-- The loop-local state of `hardware_expect`: the archived segments
(`output_list`), the running buffer (`output_str`), the consecutive
empty-read counter (`retries_count`), the next read index, the current
value of the `remove_command_from_output` flag, and a count of how many
times the command echo has been stripped (instrumentation: the source
performs one `re.sub` per increment). -/
structure LoopSt where
  outputList : List String
  outputStr : String
  retriesCount : Nat
  k : Nat
  removeCmd : Bool
  strips : Nat
deriving DecidableEq

/-- How the read loop ended: prompt matched (`exitOk`), loop condition
exhausted (`condFalse`), or an exception propagating out of
`_receive_all` (`readerErr`). -/
inductive LoopEnd
  | exitOk
  | condFalse
  | readerErr (msg : String)
deriving DecidableEq

/-- Result of one data-carrying iteration of the `hardware_expect` loop
body. -/
structure ChunkOut where
  outputList : List String
  outputStr : String
  removeCmd : Bool
  strips : Nat
  isExit : Bool
deriving DecidableEq

/-- The echo-stripping step of the loop body: when a command is given, the
flag is still set and the command pattern occurs in the buffer, delete its
first occurrence and clear the flag (counting the deletion); otherwise
leave everything unchanged. -/
def stripEcho (command : Option String) (removeCmd : Bool) (strips : Nat)
    (out1 : String) : String × Bool × Nat :=
  match command with
  | some c =>
    if c ≠ "" ∧ removeCmd then
      match cmdSearch (generate_command_pattern c) out1 with
      | some _ => (cmdReSub1 (generate_command_pattern c) out1, false, strips + 1)
      | none => (out1, removeCmd, strips)
    else (out1, removeCmd, strips)
  | none => (out1, removeCmd, strips)

/-- One data-carrying iteration of the `hardware_expect` loop body, after a
non-empty chunk `rb` was read: normalize and append the chunk, strip the
command echo once if still pending, test the prompt, evaluate the
`ActionMap`, and archive/reset the buffer accordingly. -/
def processChunk (command : Option String) (promptM : String → Bool)
    (am : List String) (removeCmd : Bool) (strips : Nat)
    (outputList : List String) (outputStr : String) (rb : String) :
    ChunkOut :=
  let se := stripEcho command removeCmd strips (outputStr ++ normalize_buffer rb)
  let out2 := se.1
  let isExit := promptM out2
  let l1 := if isExit then outputList ++ [out2] else outputList
  let matched := actionMapProcess am out2
  ⟨if matched then l1 ++ [out2] else l1, if matched then "" else out2,
    se.2.1, se.2.2, isExit⟩

/-- The `while retries == 0 or retries_count < retries` loop of
`hardware_expect`.  `raFuel` bounds each inner `_receive_all` invocation
and the outer fuel bounds the number of loop iterations. -/
def hwLoop (trans : Transport) (cfg : SessCfg) (command : Option String)
    (promptM : String → Bool) (am : List String)
    (effRetries timeoutArg raFuel : Nat) :
    Nat → LoopSt → Option (LoopEnd × LoopSt)
  | 0, _ => none
  | fuel + 1, st =>
    if effRetries = 0 ∨ st.retriesCount < effRetries then
      match receiveAll trans timeoutArg cfg.timeout raFuel st.k with
      | none => none
      | some (.error msg) => some (.readerErr msg, st)
      | some (.ok (rb, k1)) =>
        if rb = "" then
          hwLoop trans cfg command promptM am effRetries timeoutArg raFuel fuel
            { st with retriesCount := st.retriesCount + 1, k := k1 }
        else
          let c :=
            processChunk command promptM am st.removeCmd st.strips
              st.outputList st.outputStr rb
          let st1 : LoopSt :=
            { outputList := c.outputList, outputStr := c.outputStr,
              retriesCount := 0, k := k1, removeCmd := c.removeCmd,
              strips := c.strips }
          if c.isExit then some (.exitOk, st1)
          else hwLoop trans cfg command promptM am effRetries timeoutArg raFuel fuel st1
    else some (.condFalse, st)

/-- The outcome of a `hardware_expect` call: the returned string, or one of
the exceptions the source raises (`ExpectedSessionException`,
`SessionLoopLimitException` with the final `retries_count`, or
`CommandExecutionException` carrying the matched error text). -/
inductive HwOutcome
  | ok (result : String)
  | expectedSessionExn (msg : String)
  | loopLimitExn (retriesCount : Nat)
  | commandExecExn (matched : String)
deriving DecidableEq

/-- Observable result of a `hardware_expect` call: its outcome, the lines
handed to `_send`, and how many times the command echo was stripped. -/
structure HwResult where
  outcome : HwOutcome
  sends : List String
  strips : Nat
deriving DecidableEq

/-- Whether an outcome is the `SessionLoopLimitException`. -/
def isLoopLimit : HwOutcome → Bool
  | .loopLimitExn _ => true
  | _ => false

/-- The part of `hardware_expect` after the read loop: raise
`SessionLoopLimitException` when the loop fell out of its condition, let a
reader exception propagate, join the archived segments, run the `ErrorMap`
over the joined result, and otherwise append the final drain and return. -/
def postLoop (trans : Transport) (em : List String) (fuel : Nat)
    (sends : List String) : LoopEnd × LoopSt → Option HwResult
  | (.readerErr msg, st) => some ⟨.expectedSessionExn msg, sends, st.strips⟩
  | (.condFalse, st) => some ⟨.loopLimitExn st.retriesCount, sends, st.strips⟩
  | (.exitOk, st) =>
    match errorMapProcess em (String.join st.outputList) with
    | some t => some ⟨.commandExecExn t, sends, st.strips⟩
    | none =>
      match clearBuffer trans fuel "" st.k with
      | none => none
      | some (tail, _) => some ⟨.ok (String.join st.outputList ++ tail), sends, st.strips⟩

/-- `ExpectSession.hardware_expect`.  Faithful to the source's order: the
argument coalescing first, then — when a command is given (`command` is
`some`, Python non-`None`) — the stale-buffer drain and the
`send_line(command)`, and only then the emptiness check on
`expected_string`, followed by the read loop and the post-loop phase.
`promptM` is the `re.search(expected_string, output, re.DOTALL)` oracle of
`match_prompt`; `k0` is the index of the next `_receive` outcome in
`trans`; `none` means a fuel bound was reached. -/
def hardware_expect (trans : Transport) (cfg : SessCfg)
    (command : Option String) (expected_string : String)
    (promptM : String → Bool) (action_map error_map : Option (List String))
    (timeoutArg retriesArg : Nat) (remove_command_from_output : Bool)
    (fuel k0 : Nat) : Option HwResult :=
  let am := action_map.getD []
  let em := error_map.getD []
  let effRetries := if retriesArg = 0 then cfg.maxLoopRetries else retriesArg
  let pre : Option (List String × Nat) :=
    match command with
    | some c =>
      match clearBuffer trans fuel "" k0 with
      | none => none
      | some (_, k1) => some ([c ++ cfg.newLine], k1)
    | none => some ([], k0)
  match pre with
  | none => none
  | some (sends, k1) =>
    if expected_string = "" then
      some ⟨.expectedSessionExn "List of expected messages cannot be empty!", sends, 0⟩
    else
      match hwLoop trans cfg command promptM am effRetries timeoutArg fuel fuel
          { outputList := [], outputStr := "", retriesCount := 0, k := k1,
            removeCmd := remove_command_from_output, strips := 0 } with
      | none => none
      | some r => postLoop trans em fuel sends r

/-! ## Concrete transports and session used by the theorems -/

/-- A transport that never yields any data: every `_receive` call raises
the read-timeout exception. -/
def noData : Transport := fun _ => .readTimeout

/-- A transport whose very first `_receive` call returns `chunk` and which
yields nothing afterwards (used with `command = none`, where no pre-send
drain consumes reads). -/
def oneShot (chunk : String) : Transport :=
  fun k => if k = 0 then .data chunk else .readTimeout

/-- A transport with no stale data whose second `_receive` call returns
`chunk` (used with a command: the pre-send drain consumes the first read,
the response arrives after the send). -/
def afterDrain (chunk : String) : Transport :=
  fun k => if k = 1 then .data chunk else .readTimeout

/-- A session built with all `ExpectSession.__init__` defaults. -/
def cfg0 : SessCfg := {}

/-! ## Helper lemmas -/

/-- `_receive_all` never returns an empty buffer: its only normal return
hands back the accumulated data after checking it is non-empty. -/
theorem receiveAllGo_ok_ne_empty (trans : Transport) (t : Nat) :
    ∀ (fuel : Nat) (buf : String) (k j : Nat) (s : String) (k1 : Nat),
      receiveAllGo trans t fuel buf k j = some (.ok (s, k1)) → s ≠ "" := by
  intro fuel
  induction fuel with
  | zero => intro buf k j s k1 h; simp [receiveAllGo] at h
  | succ n ih =>
    intro buf k j s k1 h
    rw [receiveAllGo] at h
    cases htr : trans k with
    | data d =>
      rw [htr] at h
      exact ih (buf ++ d) (k + 1) (j + 1) s k1 h
    | readTimeout =>
      rw [htr] at h
      by_cases hb : buf = ""
      · rw [if_pos hb] at h
        by_cases hj : j + 1 > t
        · rw [if_pos hj] at h; cases h
        · rw [if_neg hj] at h
          exact ih buf (k + 1) (j + 1) s k1 h
      · rw [if_neg hb] at h
        cases h
        exact hb
    | readEmptyData =>
      rw [htr] at h
      by_cases hb : buf = ""
      · rw [if_pos hb] at h
        by_cases hj : j + 1 > t
        · rw [if_pos hj] at h; cases h
        · rw [if_neg hj] at h
          exact ih buf (k + 1) (j + 1) s k1 h
      · rw [if_neg hb] at h
        cases h
        exact hb

/-- On the no-data transport, `_receive_all` polls until its wall-clock
bound is exceeded and then raises `ExpectedSessionException`. -/
theorem receiveAllGo_noData (t : Nat) :
    ∀ (fuel j k : Nat), j ≤ t → t + 1 - j ≤ fuel →
      receiveAllGo noData t fuel "" k j = some (.error "Socket closed by timeout") := by
  intro fuel
  induction fuel with
  | zero => intro j k hj hf; omega
  | succ n ih =>
    intro j k hj hf
    rw [receiveAllGo]
    show (if ("" : String) = "" then _ else _) = _
    rw [if_pos rfl]
    by_cases hjt : j + 1 > t
    · rw [if_pos hjt]
    · rw [if_neg hjt]
      exact ih (j + 1) (k + 1) (by omega) (by omega)

/-- `_receive_all` on a transport whose next read yields the non-empty
chunk `s` and whose read after that yields nothing. -/
theorem receiveAllGo_chunk (trans : Transport) (t k : Nat) (s : String)
    (h0 : trans k = .data s) (h1 : trans (k + 1) = .readTimeout)
    (hs : s ≠ "") :
    ∀ (fuel : Nat), 2 ≤ fuel →
      receiveAllGo trans t fuel "" k 0 = some (.ok (s, k + 2)) := by
  intro fuel hf
  obtain ⟨m, rfl⟩ : ∃ m, fuel = m + 2 := ⟨fuel - 2, by omega⟩
  rw [receiveAllGo]
  simp only [h0]
  rw [receiveAllGo]
  simp only [h1, String.empty_append]
  rw [if_neg hs]

/-- The loop guard `retries == 0 or retries_count < retries` is true
whenever the empty-read counter is zero, for every retries value. -/
theorem hwLoop_guard_true (effRetries : Nat) :
    effRetries = 0 ∨ 0 < effRetries := by
  omega

/-- The read loop's behaviour does not depend on the retries bound, as long
as the empty-read counter is zero: `_receive_all` never returns an empty
chunk, so the counter can never move off zero and the guard is always
true. -/
theorem hwLoop_retries_irrel (trans : Transport) (cfg : SessCfg)
    (command : Option String) (promptM : String → Bool) (am : List String)
    (e1 e2 timeoutArg raFuel : Nat) :
    ∀ (fuel : Nat) (st : LoopSt), st.retriesCount = 0 →
      hwLoop trans cfg command promptM am e1 timeoutArg raFuel fuel st =
        hwLoop trans cfg command promptM am e2 timeoutArg raFuel fuel st := by
  intro fuel
  induction fuel with
  | zero => intro st _; rfl
  | succ n ih =>
    intro st hrc
    rw [hwLoop, hwLoop]
    rw [if_pos (hrc ▸ hwLoop_guard_true e1), if_pos (hrc ▸ hwLoop_guard_true e2)]
    cases hra : receiveAll trans timeoutArg cfg.timeout raFuel st.k with
    | none => rfl
    | some r =>
      cases r with
      | error msg => rfl
      | ok p =>
        obtain ⟨rb, k1⟩ := p
        have hrb : rb ≠ "" :=
          receiveAllGo_ok_ne_empty trans _ raFuel "" st.k 0 rb k1 hra
        simp only [if_neg hrb]
        split
        · rfl
        · exact ih _ rfl

/-- The echo-stripping step strips at most once: if the flag is still set
the strip count is zero, and after the step the count is at most one and is
still zero whenever the flag is still set. -/
theorem stripEcho_invariant (command : Option String) (removeCmd : Bool)
    (strips : Nat) (out1 out2 : String) (rc2 : Bool) (s2 : Nat)
    (heq : stripEcho command removeCmd strips out1 = (out2, rc2, s2))
    (hflag : removeCmd = true → strips = 0) (hle : strips ≤ 1) :
    (rc2 = true → s2 = 0) ∧ s2 ≤ 1 := by
  cases command with
  | none =>
    simp only [stripEcho, Prod.mk.injEq] at heq
    obtain ⟨-, h2, h3⟩ := heq
    subst h2; subst h3
    exact ⟨hflag, hle⟩
  | some c =>
    simp only [stripEcho] at heq
    by_cases hc : c ≠ "" ∧ removeCmd = true
    · rw [if_pos hc] at heq
      cases hsr : cmdSearch (generate_command_pattern c) out1 with
      | some sp =>
        rw [hsr] at heq
        simp only [Prod.mk.injEq] at heq
        obtain ⟨-, h2, h3⟩ := heq
        have h0 : strips = 0 := hflag hc.2
        refine ⟨fun hrc => ?_, by omega⟩
        rw [← h2] at hrc
        exact absurd hrc (by decide)
      | none =>
        rw [hsr] at heq
        simp only [Prod.mk.injEq] at heq
        obtain ⟨-, h2, h3⟩ := heq
        subst h2; subst h3
        exact ⟨hflag, hle⟩
    · rw [if_neg hc] at heq
      simp only [Prod.mk.injEq] at heq
      obtain ⟨-, h2, h3⟩ := heq
      subst h2; subst h3
      exact ⟨hflag, hle⟩

/-- The loop-body invariant behind "the echo is stripped at most once per
call": carried through one data iteration. -/
theorem processChunk_strips_invariant (command : Option String)
    (promptM : String → Bool) (am : List String) (removeCmd : Bool)
    (strips : Nat) (outputList : List String) (outputStr rb : String)
    (hflag : removeCmd = true → strips = 0) (hle : strips ≤ 1) :
    ((processChunk command promptM am removeCmd strips outputList outputStr
        rb).removeCmd = true →
      (processChunk command promptM am removeCmd strips outputList outputStr
        rb).strips = 0) ∧
    (processChunk command promptM am removeCmd strips outputList outputStr
        rb).strips ≤ 1 :=
  stripEcho_invariant command removeCmd strips
    (outputStr ++ normalize_buffer rb) _ _ _ rfl hflag hle


/-! ## Claim theorems -/

/-- C10: `decrement_sessions_count` is a no-op when the existing-sessions
counter is zero, so every interleaving of `increment_sessions_count` and
`decrement_sessions_count` calls, run from the initial counter `0`, keeps
the counter non-negative. -/
theorem counter_decrement_noop_and_nonneg :
    decrement_sessions_count 0 = 0 ∧ ∀ ops : List CounterOp, 0 ≤ countRun ops := by
  constructor
  · decide
  · intro ops
    have key : ∀ (l : List CounterOp) (n : Int), 0 ≤ n →
        0 ≤ l.foldl applyCounterOp n := by
      intro l
      induction l with
      | nil => intro n h; exact h
      | cons op t ih =>
        intro n h
        apply ih
        cases op with
        | inc =>
          simp only [applyCounterOp, increment_sessions_count]
          omega
        | dec =>
          simp only [applyCounterOp, decrement_sessions_count]
          split <;> omega
    exact key ops 0 le_rfl

/-- The creation flag returned by `get_session_instance` is exactly the
creation condition of its source: idle queue empty and counter strictly
below the bound. -/
theorem get_session_instance_created_iff (maxConnections : Nat)
    (st : PoolState) :
    (get_session_instance maxConnections st).2.2 =
      (st.queue.isEmpty && decide (st.counter < (maxConnections : Int))) := by
  simp only [get_session_instance]
  split <;> rfl

/-- One pool operation preserves the counter bound. -/
theorem applyPoolOp_counter_le (maxConnections : Nat) (st : PoolState)
    (op : PoolOp) (h : st.counter ≤ (maxConnections : Int)) :
    (applyPoolOp maxConnections st op).counter ≤ (maxConnections : Int) := by
  cases op with
  | returnSession x =>
    simp only [applyPoolOp, return_session_to_pool]
    split <;> exact h
  | getSession =>
    simp only [applyPoolOp, get_session_instance]
    by_cases hcc :
        (st.queue.isEmpty && decide (st.counter < (maxConnections : Int))) = true
    · rw [if_pos hcc]
      have hlt : st.counter < (maxConnections : Int) := by
        have := (Bool.and_eq_true _ _).mp hcc
        exact of_decide_eq_true this.2
      split <;> simp only [increment_sessions_count] <;> omega
    · rw [if_neg hcc]
      split <;> exact h

/-- C2: over every sequence of serialized `get_session_instance` and
`return_session_to_pool` operations from the fresh pool, the
existing-sessions counter never exceeds `max_connections`; and a session is
created by `get_session_instance` (whose body runs under
`CREATE_SESSION_LOCK`) exactly when the idle queue is empty and the counter
is strictly below `max_connections`. -/
theorem pool_counter_bounded_and_creation_guarded (maxConnections : Nat)
    (ops : List PoolOp) (st : PoolState) :
    (runPool maxConnections ops).counter ≤ (maxConnections : Int) ∧
    ((get_session_instance maxConnections st).2.2 = true →
      st.queue = [] ∧ st.counter < (maxConnections : Int)) := by
  constructor
  · have key : ∀ (l : List PoolOp) (s : PoolState),
        s.counter ≤ (maxConnections : Int) →
        (l.foldl (applyPoolOp maxConnections) s).counter ≤ (maxConnections : Int) := by
      intro l
      induction l with
      | nil => intro s h; exact h
      | cons op t ih =>
        intro s h
        exact ih _ (applyPoolOp_counter_le maxConnections s op h)
    refine key ops initPool ?_
    simp [initPool]
  · intro h
    rw [get_session_instance_created_iff] at h
    have := (Bool.and_eq_true _ _).mp h
    exact ⟨List.isEmpty_iff.mp this.1, of_decide_eq_true this.2⟩

/-- Witness for C2 at a concrete pool bound, operation sequence and
state. -/
theorem pool_counter_bounded_witness :
    (runPool 2 [PoolOp.getSession, PoolOp.getSession,
      PoolOp.returnSession 0, PoolOp.getSession]).counter ≤ (2 : Int) ∧
    (initPool.queue = [] ∧ initPool.counter < (2 : Int)) :=
  ⟨(pool_counter_bounded_and_creation_guarded 2
      [PoolOp.getSession, PoolOp.getSession, PoolOp.returnSession 0,
        PoolOp.getSession] initPool).1,
    (pool_counter_bounded_and_creation_guarded 2 [] initPool).2 (by decide)⟩

/-- C7: starting from an inactive session, `connect` leaves the session
flagged active (and without a forced disconnect) exactly when both
`_initialize_session` and `_connect_actions` succeed; when either raises,
`connect` performs the forced disconnect, re-raises that same exception,
and the `_active` flag is still `false`. -/
theorem connect_active_iff_both_succeed (initRes actRes : Option String) :
    (connect initRes actRes ⟨false, false⟩ = (none, ⟨true, false⟩) ↔
      initRes = none ∧ actRes = none) ∧
    (∀ e, initRes = some e →
      connect initRes actRes ⟨false, false⟩ = (some e, ⟨false, true⟩)) ∧
    (∀ e, initRes = none → actRes = some e →
      connect initRes actRes ⟨false, false⟩ = (some e, ⟨false, true⟩)) := by
  refine ⟨?_, ?_, ?_⟩ <;>
    cases initRes <;> cases actRes <;>
      simp [connect, set_active, disconnectOp]

/-- Witness for C7: a failing `_connect_actions` forces a disconnect,
re-raises, and leaves the session inactive. -/
theorem connect_active_iff_both_succeed_witness :
    connect none (some "boom") ⟨false, false⟩ = (some "boom", ⟨false, true⟩) :=
  (connect_active_iff_both_succeed none (some "boom")).2.2 "boom" rfl rfl

/-- After filtering out every pair keyed by `tid`, lookup of `tid` fails. -/
theorem lookup_filter_ne (tid : Nat) :
    ∀ l : List (Nat × Nat), (l.filter (fun p => p.1 != tid)).lookup tid = none := by
  intro l
  induction l with
  | nil => rfl
  | cons a t ih =>
    obtain ⟨k, v⟩ := a
    rw [List.filter_cons]
    by_cases hk : k = tid
    · subst hk
      rw [if_neg (by simp)]
      exact ih
    · rw [if_pos (by simp [hk])]
      have hbeq : (tid == k) = false := by simp [Ne.symm hk]
      simp [List.lookup, hbeq, ih]

/-- `set_invalid` flips the target session's flag to inactive. -/
theorem set_invalid_active_self (sid : Nat) (st : CMState) :
    (set_invalid sid st).active sid = false := by
  simp [set_invalid]

/-- C8: `destroy_thread_session` marks the given session inactive, removes
the calling thread's entry from the affinity cache, and leaves the pool
untouched (the session is not returned to it). -/
theorem destroy_thread_session_spec (tid sid : Nat) (st : CMState) :
    (destroy_thread_session tid sid st).active sid = false ∧
    (destroy_thread_session tid sid st).container.lookup tid = none ∧
    (destroy_thread_session tid sid st).pool = st.pool := by
  unfold destroy_thread_session
  by_cases h : ((set_invalid sid st).container.lookup tid).isSome
  · rw [if_pos h]
    exact ⟨set_invalid_active_self sid st,
      lookup_filter_ne tid st.container, rfl⟩
  · rw [if_neg h]
    refine ⟨set_invalid_active_self sid st, ?_, rfl⟩
    exact Option.not_isSome_iff_eq_none.mp h

/-- The strips invariant carried through the whole read loop: a run that
starts with the flag/count invariant ends with at most one strip
performed. -/
theorem hwLoop_strips_invariant (trans : Transport) (cfg : SessCfg)
    (command : Option String) (promptM : String → Bool) (am : List String)
    (effRetries timeoutArg raFuel : Nat) :
    ∀ (fuel : Nat) (st : LoopSt) (e : LoopEnd) (st' : LoopSt),
      hwLoop trans cfg command promptM am effRetries timeoutArg raFuel fuel st =
        some (e, st') →
      (st.removeCmd = true → st.strips = 0) → st.strips ≤ 1 →
      st'.strips ≤ 1 := by
  intro fuel
  induction fuel with
  | zero => intro st e st' h _ _; simp [hwLoop] at h
  | succ n ih =>
    intro st e st' h hflag hle
    rw [hwLoop] at h
    by_cases hguard : effRetries = 0 ∨ st.retriesCount < effRetries
    · rw [if_pos hguard] at h
      cases hra : receiveAll trans timeoutArg cfg.timeout raFuel st.k with
      | none => rw [hra] at h; cases h
      | some r =>
        rw [hra] at h
        cases r with
        | error msg =>
          cases h
          exact hle
        | ok p =>
          obtain ⟨rb, k1⟩ := p
          simp only [hra] at h
          by_cases hrb : rb = ""
          · rw [if_pos hrb] at h
            exact ih _ e st' h hflag hle
          · rw [if_neg hrb] at h
            have hc := processChunk_strips_invariant command promptM am
              st.removeCmd st.strips st.outputList st.outputStr rb hflag hle
            by_cases hex : (processChunk command promptM am st.removeCmd
                st.strips st.outputList st.outputStr rb).isExit = true
            · rw [if_pos hex] at h
              cases h
              exact hc.2
            · rw [if_neg hex] at h
              exact ih _ e st' h hc.1 hc.2
    · rw [if_neg hguard] at h
      cases h
      exact hle

/-- C5: over every `hardware_expect` call that terminates within its fuel,
the command echo is removed from the output at most once: the number of
`re.sub` deletions performed (the `strips` field of the result) is at most
one, the first occurrence only — a later occurrence of the command in the
output is left intact because the `remove_command_from_output` flag is
cleared by the first deletion. -/
theorem hardware_expect_strips_at_most_once (trans : Transport)
    (cfg : SessCfg) (command : Option String) (expected_string : String)
    (promptM : String → Bool) (action_map error_map : Option (List String))
    (timeoutArg retriesArg : Nat) (remove_command_from_output : Bool)
    (fuel k0 : Nat) (r : HwResult)
    (h : hardware_expect trans cfg command expected_string promptM action_map
      error_map timeoutArg retriesArg remove_command_from_output fuel k0 =
        some r) :
    r.strips ≤ 1 := by
  unfold hardware_expect at h
  have main : ∀ (sends : List String) (k1 : Nat),
      ((if expected_string = "" then
          some (⟨.expectedSessionExn "List of expected messages cannot be empty!",
            sends, 0⟩ : HwResult)
        else
          match hwLoop trans cfg command promptM (action_map.getD [])
              (if retriesArg = 0 then cfg.maxLoopRetries else retriesArg)
              timeoutArg fuel fuel
              { outputList := [], outputStr := "", retriesCount := 0, k := k1,
                removeCmd := remove_command_from_output, strips := 0 } with
          | none => none
          | some res =>
            postLoop trans (error_map.getD []) fuel sends res) = some r) →
      r.strips ≤ 1 := by
    intro sends k1 hm
    by_cases hes : expected_string = ""
    · rw [if_pos hes] at hm
      cases hm
      exact Nat.zero_le 1
    · rw [if_neg hes] at hm
      cases hloop : hwLoop trans cfg command promptM (action_map.getD [])
          (if retriesArg = 0 then cfg.maxLoopRetries else retriesArg)
          timeoutArg fuel fuel
          { outputList := [], outputStr := "", retriesCount := 0, k := k1,
            removeCmd := remove_command_from_output, strips := 0 } with
      | none => rw [hloop] at hm; cases hm
      | some res =>
        rw [hloop] at hm
        obtain ⟨e, st'⟩ := res
        have hs' : st'.strips ≤ 1 :=
          hwLoop_strips_invariant trans cfg command promptM
            (action_map.getD [])
            (if retriesArg = 0 then cfg.maxLoopRetries else retriesArg)
            timeoutArg fuel fuel _ e st' hloop (fun _ => rfl) (Nat.zero_le 1)
        cases e with
        | readerErr msg =>
          simp only [postLoop] at hm
          cases hm
          exact hs'
        | condFalse =>
          simp only [postLoop] at hm
          cases hm
          exact hs'
        | exitOk =>
          simp only [postLoop] at hm
          cases hem : errorMapProcess (error_map.getD [])
              (String.join st'.outputList) with
          | some t =>
            rw [hem] at hm
            cases hm
            exact hs'
          | none =>
            rw [hem] at hm
            cases hcb : clearBuffer trans fuel "" st'.k with
            | none => rw [hcb] at hm; cases hm
            | some p =>
              rw [hcb] at hm
              obtain ⟨tail, k2⟩ := p
              simp only [Option.map_some] at hm
              cases hm
              exact hs'
  cases command with
  | none => exact main [] k0 h
  | some c =>
    cases hcb : clearBuffer trans fuel "" k0 with
    | none => rw [hcb] at h; cases h
    | some p =>
      rw [hcb] at h
      obtain ⟨d, k1⟩ := p
      exact main [c ++ cfg.newLine] k1 h

/-- Witness for C5: a command echoed once and repeated later in legitimate
output; the echo (first occurrence) is stripped exactly once and the later
occurrence survives in the returned result. -/
theorem hardware_expect_strips_witness :
    hardware_expect (afterDrain "show\nabc show def\n#") cfg0 (some "show")
        "#" (fun s => strContains s "#") none none 0 0 true 30 0 =
      some ⟨.ok "abc show def\n#", ["show\r"], 1⟩ ∧
    (⟨.ok "abc show def\n#", ["show\r"], 1⟩ : HwResult).strips ≤ 1 :=
  ⟨by decide,
    hardware_expect_strips_at_most_once (afterDrain "show\nabc show def\n#")
      cfg0 (some "show") "#" (fun s => strContains s "#") none none 0 0 true
      30 0 ⟨.ok "abc show def\n#", ["show\r"], 1⟩ (by decide)⟩

/-- C4 (amended): the retries argument has no observable effect on
`hardware_expect` at all.  `retries = 0` is first coalesced to the
session's `max_loop_retries`, and since `_receive_all` never returns an
empty chunk the empty-read counter stays at zero and the loop guard
`retries == 0 or retries_count < retries` is always true — so the loop is
unbounded by the retry count for `retries = 0` and `retries = n > 0`
alike, terminating only on a prompt match or an exception from the
reader. -/
theorem hardware_expect_retries_irrelevant (trans : Transport)
    (cfg : SessCfg) (command : Option String) (expected_string : String)
    (promptM : String → Bool) (action_map error_map : Option (List String))
    (timeoutArg r1 r2 : Nat) (remove_command_from_output : Bool)
    (fuel k0 : Nat) :
    hardware_expect trans cfg command expected_string promptM action_map
        error_map timeoutArg r1 remove_command_from_output fuel k0 =
      hardware_expect trans cfg command expected_string promptM action_map
        error_map timeoutArg r2 remove_command_from_output fuel k0 := by
  have tail : ∀ (sends : List String) (k1 : Nat),
      (if expected_string = "" then
        some (⟨.expectedSessionExn "List of expected messages cannot be empty!",
          sends, 0⟩ : HwResult)
      else
        match hwLoop trans cfg command promptM (action_map.getD [])
            (if r1 = 0 then cfg.maxLoopRetries else r1) timeoutArg fuel fuel
            { outputList := [], outputStr := "", retriesCount := 0, k := k1,
              removeCmd := remove_command_from_output, strips := 0 } with
        | none => none
        | some r => postLoop trans (error_map.getD []) fuel sends r) =
      (if expected_string = "" then
        some (⟨.expectedSessionExn "List of expected messages cannot be empty!",
          sends, 0⟩ : HwResult)
      else
        match hwLoop trans cfg command promptM (action_map.getD [])
            (if r2 = 0 then cfg.maxLoopRetries else r2) timeoutArg fuel fuel
            { outputList := [], outputStr := "", retriesCount := 0, k := k1,
              removeCmd := remove_command_from_output, strips := 0 } with
        | none => none
        | some r => postLoop trans (error_map.getD []) fuel sends r) := by
    intro sends k1
    by_cases hes : expected_string = ""
    · rw [if_pos hes, if_pos hes]
    · rw [if_neg hes, if_neg hes]
      rw [hwLoop_retries_irrel trans cfg command promptM (action_map.getD [])
        (if r1 = 0 then cfg.maxLoopRetries else r1)
        (if r2 = 0 then cfg.maxLoopRetries else r2) timeoutArg fuel fuel
        { outputList := [], outputStr := "", retriesCount := 0, k := k1,
          removeCmd := remove_command_from_output, strips := 0 } rfl]
  cases command with
  | none => exact tail [] k0
  | some c =>
    simp only [hardware_expect]
    cases hcb : clearBuffer trans fuel "" k0 with
    | none => rfl
    | some p =>
      obtain ⟨d, k1⟩ := p
      exact tail [c ++ cfg.newLine] k1

/-- Counterexample for C4 as stated: with a transport yielding no data and
`retries = 1`, the claimed behaviour — at most one empty-read iteration and
then a retry-governed failure (`SessionLoopLimitException`), in contrast to
an unlimited loop for `retries = 0` — does not occur: the call raises the
reader's `ExpectedSessionException` instead, and `retries = 1` and
`retries = 0` behave identically. -/
theorem hardware_expect_retries_counterexample :
    hardware_expect noData cfg0 none "#" (fun s => strContains s "#") none
        none 3 1 true 20 0 =
      hardware_expect noData cfg0 none "#" (fun s => strContains s "#") none
        none 3 0 true 20 0 ∧
    (hardware_expect noData cfg0 none "#" (fun s => strContains s "#") none
        none 3 1 true 20 0).map (fun r => isLoopLimit r.outcome) =
      some false := by
  constructor
  · decide
  · decide

/-- C3 (amended): against a transport that yields no data at all, the
transient `ReadTimeout`/`ReadEmptyData` failures are absorbed inside
`_receive_all` and never propagate, but the call does not fail through the
empty-retry counter: `_receive_all` itself raises
`ExpectedSessionException` ("Socket closed by timeout") once its wall-clock
bound expires, and that is the exception `hardware_expect` surfaces, for
every retries value. -/
theorem hardware_expect_no_data_times_out (cfg : SessCfg)
    (command : Option String) (expected_string : String)
    (promptM : String → Bool) (action_map error_map : Option (List String))
    (timeoutArg retriesArg : Nat) (remove_command_from_output : Bool)
    (fuel k0 : Nat) (hes : expected_string ≠ "")
    (hfuel : (if timeoutArg = 0 then cfg.timeout else timeoutArg) + 2 ≤ fuel) :
    hardware_expect noData cfg command expected_string promptM action_map
        error_map timeoutArg retriesArg remove_command_from_output fuel k0 =
      some ⟨.expectedSessionExn "Socket closed by timeout",
        (match command with
          | some c => [c ++ cfg.newLine]
          | none => []), 0⟩ := by
  have hloop : ∀ k1 : Nat,
      hwLoop noData cfg command promptM (action_map.getD [])
        (if retriesArg = 0 then cfg.maxLoopRetries else retriesArg)
        timeoutArg fuel fuel
        { outputList := [], outputStr := "", retriesCount := 0, k := k1,
          removeCmd := remove_command_from_output, strips := 0 } =
      some (.readerErr "Socket closed by timeout",
        { outputList := [], outputStr := "", retriesCount := 0, k := k1,
          removeCmd := remove_command_from_output, strips := 0 }) := by
    intro k1
    obtain ⟨m, rfl⟩ : ∃ m, fuel = m + 1 := ⟨fuel - 1, by omega⟩
    rw [hwLoop]
    rw [if_pos (hwLoop_guard_true _)]
    have hra : receiveAll noData timeoutArg cfg.timeout (m + 1) k1 =
        some (.error "Socket closed by timeout") := by
      unfold receiveAll
      exact receiveAllGo_noData _ (m + 1) 0 k1 (Nat.zero_le _) (by omega)
    simp only [hra]
  cases command with
  | none =>
    show (if expected_string = "" then _ else _) = _
    rw [if_neg hes]
    rw [hloop k0]
    rfl
  | some c =>
    obtain ⟨m, rfl⟩ : ∃ m, fuel = m + 1 := ⟨fuel - 1, by omega⟩
    have hcb : clearBuffer noData (m + 1) "" k0 = some ("", k0 + 1) := by
      rw [clearBuffer]
      rfl
    simp only [hardware_expect, hcb]
    rw [if_neg hes]
    rw [hloop (k0 + 1)]
    rfl

/-- Witness for C3 (amended) at a concrete transport, command, prompt,
timeout and fuel. -/
theorem hardware_expect_no_data_times_out_witness :
    hardware_expect noData cfg0 (some "ls") "#" (fun s => strContains s "#")
        none none 3 2 true 20 0 =
      some ⟨.expectedSessionExn "Socket closed by timeout", ["ls\r"], 0⟩ :=
  hardware_expect_no_data_times_out cfg0 (some "ls") "#"
    (fun s => strContains s "#") none none 3 2 true 20 0 (by decide)
    (by decide)

/-- Counterexample for C3 as stated: with a transport yielding no data and
a retries budget of 2, the call does not fail with
`SessionLoopLimitException` after exhausting the empty-retry counter — it
raises `ExpectedSessionException` from `_receive_all`. -/
theorem hardware_expect_no_data_counterexample :
    (hardware_expect noData cfg0 (some "pwd") "#"
        (fun s => strContains s "#") none none 2 2 true 20 0).map
      (fun r => isLoopLimit r.outcome) = some false ∧
    hardware_expect noData cfg0 (some "pwd") "#"
        (fun s => strContains s "#") none none 2 2 true 20 0 =
      some ⟨.expectedSessionExn "Socket closed by timeout", ["pwd\r"], 0⟩ := by
  constructor
  · decide
  · decide

/-- C6 (amended): with a command given and an empty expected-prompt
pattern, `hardware_expect` does reject the call with
`ExpectedSessionException` ("List of expected messages cannot be empty!"),
but only after having drained the stale buffered input and sent the
command: every terminating such call has already sent
`command + lineTerminator`. -/
theorem hardware_expect_empty_expected_after_send (trans : Transport)
    (cfg : SessCfg) (c : String) (promptM : String → Bool)
    (action_map error_map : Option (List String))
    (timeoutArg retriesArg : Nat) (remove_command_from_output : Bool)
    (fuel k0 : Nat) (r : HwResult)
    (h : hardware_expect trans cfg (some c) "" promptM action_map error_map
      timeoutArg retriesArg remove_command_from_output fuel k0 = some r) :
    r = ⟨.expectedSessionExn "List of expected messages cannot be empty!",
      [c ++ cfg.newLine], 0⟩ := by
  simp only [hardware_expect] at h
  cases hcb : clearBuffer trans fuel "" k0 with
  | none => rw [hcb] at h; cases h
  | some p =>
    rw [hcb] at h
    obtain ⟨d, k1⟩ := p
    injection h with h2
    exact h2.symm

/-- Witness for C6 (amended): a concrete call with a command and an empty
expected pattern has sent the command by the time it is rejected. -/
theorem hardware_expect_empty_expected_witness :
    (⟨.expectedSessionExn "List of expected messages cannot be empty!",
        ["x\r"], 0⟩ : HwResult) =
      ⟨.expectedSessionExn "List of expected messages cannot be empty!",
        ["x" ++ cfg0.newLine], 0⟩ :=
  hardware_expect_empty_expected_after_send noData cfg0 "x"
    (fun s => strContains s "#") none none 1 1 true 5 0 _ (by decide)

/-- Counterexample for C6 as stated: the empty-pattern rejection is not the
first step — at the moment the call fails, the stale-input drain has run
and the command has already been sent (`sends` is non-empty). -/
theorem hardware_expect_empty_expected_counterexample :
    hardware_expect noData cfg0 (some "x") "" (fun s => strContains s "#")
        none none 1 1 true 5 0 = some
      ⟨.expectedSessionExn "List of expected messages cannot be empty!",
        ["x\r"], 0⟩ ∧
    (hardware_expect noData cfg0 (some "x") ""
        (fun s => strContains s "#") none none 1 1 true 5 0).map
      (fun r => r.sends = []) = some False := by
  constructor
  · decide
  · simp only [show hardware_expect noData cfg0 (some "x") ""
        (fun s => strContains s "#") none none 1 1 true 5 0 = some
      ⟨.expectedSessionExn "List of expected messages cannot be empty!",
        ["x\r"], 0⟩ from by decide]
    simp

/-- Joining a single archived segment yields that segment. -/
theorem string_join_singleton (a : String) : String.join [a] = a := by
  cases a
  simp [String.join_eq]

/-- Joining two archived segments concatenates them. -/
theorem string_join_pair (a b : String) : String.join [a, b] = a ++ b := by
  cases a
  cases b
  show String.join [_, _] = String.mk _
  simp [String.join_eq]

/-- First-iteration exit of the read loop on the one-shot transport: the
single chunk arrives, the prompt matches the buffer, and the loop exits
with the buffer archived — twice when an `ActionMap` rule also matched. -/
theorem hwLoop_oneShot_first_exit (cfg : SessCfg) (promptM : String → Bool)
    (am : List String) (effRetries timeoutArg : Nat) (chunk : String)
    (raFuel fuel : Nat) (rm : Bool) (hch : chunk ≠ "")
    (hpm : promptM (normalize_buffer chunk) = true) (hra : 2 ≤ raFuel)
    (hfuel : 1 ≤ fuel) :
    hwLoop (oneShot chunk) cfg none promptM am effRetries timeoutArg raFuel
        fuel ⟨[], "", 0, 0, rm, 0⟩ =
      some (.exitOk,
        ⟨if actionMapProcess am (normalize_buffer chunk) then
            [normalize_buffer chunk, normalize_buffer chunk]
          else [normalize_buffer chunk],
          if actionMapProcess am (normalize_buffer chunk) then ""
          else normalize_buffer chunk, 0, 2, rm, 0⟩) := by
  obtain ⟨f, rfl⟩ : ∃ f, fuel = f + 1 := ⟨fuel - 1, by omega⟩
  rw [hwLoop]
  rw [if_pos (hwLoop_guard_true _)]
  have hrecv := receiveAllGo_chunk (oneShot chunk)
    (if timeoutArg = 0 then cfg.timeout else timeoutArg) 0 chunk rfl rfl hch
    raFuel hra
  simp only [receiveAll]
  simp only [hrecv]
  rw [if_neg hch]
  have hout : (processChunk none promptM am rm 0 [] "" chunk) =
      ⟨if actionMapProcess am (normalize_buffer chunk) then
          [normalize_buffer chunk, normalize_buffer chunk]
        else [normalize_buffer chunk],
        if actionMapProcess am (normalize_buffer chunk) then ""
        else normalize_buffer chunk, rm, 0,
        promptM (normalize_buffer chunk)⟩ := by
    simp only [processChunk, stripEcho, String.empty_append, hpm, if_true,
      List.nil_append, List.singleton_append]
  rw [hout]
  rw [if_pos (by rw [hpm])]

/-- C1: whenever the expected-prompt pattern matches the accumulated
output but an `ErrorMap` pattern matches the archived result, the
error-map match overrides the successful prompt match:
`hardware_expect` fails with `CommandExecutionException` carrying the
matched text instead of returning the result. -/
theorem hardware_expect_error_overrides_prompt (cfg : SessCfg)
    (chunk expected_string t : String) (promptM : String → Bool)
    (em : List String) (timeoutArg retriesArg : Nat) (rm : Bool)
    (fuel : Nat) (hch : chunk ≠ "") (hes : expected_string ≠ "")
    (hpm : promptM (normalize_buffer chunk) = true)
    (hem : errorMapProcess em (normalize_buffer chunk) = some t)
    (hfuel : 2 ≤ fuel) :
    hardware_expect (oneShot chunk) cfg none expected_string promptM none
        (some em) timeoutArg retriesArg rm fuel 0 =
      some ⟨.commandExecExn t, [], 0⟩ := by
  simp only [hardware_expect, Option.getD]
  rw [if_neg hes]
  rw [hwLoop_oneShot_first_exit cfg promptM []
    (if retriesArg = 0 then cfg.maxLoopRetries else retriesArg) timeoutArg
    chunk fuel fuel rm hch hpm hfuel (by omega)]
  simp only [postLoop, actionMapProcess, List.any_nil, Bool.false_eq_true,
    if_false, string_join_singleton, hem]

/-- Witness for C1: the spec's own example — output
`cmd\nbad arg\nSyntax error\n#`, a prompt matcher satisfied by the
trailing `#`, and the error pattern `Syntax error`. -/
theorem hardware_expect_error_overrides_prompt_witness :
    hardware_expect (oneShot "cmd\nbad arg\nSyntax error\n#") cfg0 none "#"
        (fun s => strContains s "#") none (some ["Syntax error"]) 0 0 true
        10 0 =
      some ⟨.commandExecExn "Syntax error", [], 0⟩ :=
  hardware_expect_error_overrides_prompt cfg0 "cmd\nbad arg\nSyntax error\n#"
    "#" "Syntax error" (fun s => strContains s "#") ["Syntax error"] 0 0
    true 10 (by decide) (by decide) (by decide) (by decide) (by decide)

/-- C9: in an iteration where both the expected-prompt pattern and an
`ActionMap` rule match the buffer, the same segment is archived twice, so
its text appears twice in the returned result string. -/
theorem hardware_expect_prompt_action_double_archive (cfg : SessCfg)
    (chunk expected_string : String) (promptM : String → Bool)
    (am : List String) (timeoutArg retriesArg : Nat) (rm : Bool)
    (fuel : Nat) (hch : chunk ≠ "") (hes : expected_string ≠ "")
    (hpm : promptM (normalize_buffer chunk) = true)
    (ham : actionMapProcess am (normalize_buffer chunk) = true)
    (hfuel : 2 ≤ fuel) :
    hardware_expect (oneShot chunk) cfg none expected_string promptM
        (some am) none timeoutArg retriesArg rm fuel 0 =
      some ⟨.ok (normalize_buffer chunk ++ normalize_buffer chunk), [], 0⟩ := by
  obtain ⟨m, rfl⟩ : ∃ m, fuel = m + 2 := ⟨fuel - 2, by omega⟩
  simp only [hardware_expect, Option.getD]
  rw [if_neg hes]
  rw [hwLoop_oneShot_first_exit cfg promptM am
    (if retriesArg = 0 then cfg.maxLoopRetries else retriesArg) timeoutArg
    chunk (m + 2) (m + 2) rm hch hpm (by omega) (by omega)]
  have hcb : clearBuffer (oneShot chunk) (m + 2) "" 2 = some ("", 3) := by
    rw [clearBuffer]
    rfl
  simp only [ham, if_true, postLoop, errorMapProcess, List.find?_nil, hcb,
    Option.map_some, string_join_pair, String.append_empty]

/-- Witness for C9: a chunk matched both by the prompt matcher and by an
action rule is returned doubled. -/
theorem hardware_expect_prompt_action_double_archive_witness :
    hardware_expect (oneShot "Password:\n#") cfg0 none "#"
        (fun s => strContains s "#") (some ["Password:"]) none 0 0 true
        10 0 =
      some ⟨.ok "Password:\n#Password:\n#", [], 0⟩ := by
  have h := hardware_expect_prompt_action_double_archive cfg0 "Password:\n#"
    "#" (fun s => strContains s "#") ["Password:"] 0 0 true 10 (by decide)
    (by decide) (by decide) (by decide) (by decide)
  rw [h]
  decide
